import Mathlib

/-!
Verification of the geometric core of a CCTag calibration-disk generator.

The embedded functions follow `generate_disk.py`:
* `get_polygon_inside_circle_corner_positions` — vertices of the regular
  polygon inscribed in a circle of a given diameter, tangent to the axes;
* `get_polygon_inside_circle_side_length` — its chord (edge) length;
* `get_marker_positions_and_size` — the two-pass marker layout solver;
* `determine_quartile` — the label-offset quartile selector (Python true
  division is modelled exactly over ℚ);
* `marker_id_position` — the label-offset placement from `main`.

Real-valued quantities are modelled over ℝ (the source uses IEEE doubles;
the properties of interest are stated by the specification up to
floating-point tolerance, i.e. about the ideal real-valued computation).
-/

/-- Euclidean distance between two points of the plane, written out on
pairs of reals (the product metric on `ℝ × ℝ` is the sup metric, so we
spell the Euclidean one explicitly). -/
noncomputable def dist2 (p q : ℝ × ℝ) : ℝ :=
  Real.sqrt ((p.1 - q.1) ^ 2 + (p.2 - q.2) ^ 2)

/-- Vertices of the regular polygon with `num_sides` corners inscribed in
the circle of diameter `circle_diameter` centred at
`(circle_diameter/2, circle_diameter/2)`, sampled at angles
`i * (2π/num_sides)` for `i = 0, …, num_sides − 1`.
Embeds `get_polygon_inside_circle_corner_positions` of `generate_disk.py`. -/
noncomputable def get_polygon_inside_circle_corner_positions
    (num_sides : ℕ) (circle_diameter : ℝ) : List (ℝ × ℝ) :=
  (List.range num_sides).map fun (i : ℕ) =>
    let radius := circle_diameter / 2
    let angle_increment := 2 * Real.pi / num_sides
    let angle := (i : ℝ) * angle_increment
    (radius + radius * Real.cos angle, radius + radius * Real.sin angle)

/-- Edge length of the regular polygon with `num_sides` corners inscribed
in the circle of diameter `circle_diameter`:
`2 * (circle_diameter/2) * sin (π/num_sides)`.
Embeds `get_polygon_inside_circle_side_length` of `generate_disk.py`. -/
noncomputable def get_polygon_inside_circle_side_length
    (num_sides : ℕ) (circle_diameter : ℝ) : ℝ :=
  let radius := circle_diameter / 2
  2 * radius * Real.sin (Real.pi / num_sides)

/-- The two-pass marker layout solver, embedding
`get_marker_positions_and_size` of `generate_disk.py` line by line
(`number_of_marker_rings` is accepted and unused, exactly as in the
source).  Returns the pass-2 polygon vertices and the final marker
radius. -/
noncomputable def get_marker_positions_and_size
    (disk_diameter_mm : ℝ) (number_of_marker : ℕ)
    (number_of_marker_rings : ℕ)
    (max_distance_between_markers_mm : ℝ)
    (marker_circle_diameter_reduction_ratio : ℝ) :
    List (ℝ × ℝ) × ℝ :=
  let _ := number_of_marker_rings
  let side_length :=
    get_polygon_inside_circle_side_length number_of_marker disk_diameter_mm
  let marker_radius_mm := side_length / 2 - max_distance_between_markers_mm
  let marker_radius_mm :=
    if marker_radius_mm < 0 then side_length / 2 else marker_radius_mm
  let marker_diameter_mm := 2 * marker_radius_mm
  let marker_circle_diameter_mm :=
    disk_diameter_mm -
      marker_circle_diameter_reduction_ratio * marker_diameter_mm
  let positions :=
    get_polygon_inside_circle_corner_positions number_of_marker
      marker_circle_diameter_mm
  let side_length :=
    get_polygon_inside_circle_side_length number_of_marker
      marker_circle_diameter_mm
  let marker_radius_mm := side_length / 2 - max_distance_between_markers_mm
  let marker_radius_mm :=
    if marker_radius_mm < 0 then side_length / 2 else marker_radius_mm
  (positions, marker_radius_mm)

/-- The pass-1 marker radius of the solver: `edgeLength/2 − clearance`,
clamped to `edgeLength/2` when negative (lines 52–55 of
`generate_disk.py`). -/
noncomputable def pass1_marker_radius
    (disk_diameter_mm clearance : ℝ) (number_of_marker : ℕ) : ℝ :=
  let side_length :=
    get_polygon_inside_circle_side_length number_of_marker disk_diameter_mm
  if side_length / 2 - clearance < 0 then side_length / 2
  else side_length / 2 - clearance

/-- The pass-2 placement circle diameter of the solver:
`diskDiameter − reductionRatio · (2 · pass1Radius)` (lines 56–59 of
`generate_disk.py`). -/
noncomputable def marker_circle_diameter
    (disk_diameter_mm clearance reduction_ratio : ℝ)
    (number_of_marker : ℕ) : ℝ :=
  disk_diameter_mm -
    reduction_ratio *
      (2 * pass1_marker_radius disk_diameter_mm clearance number_of_marker)

/-- The pass-2 edge length of the solver (lines 65–67 of
`generate_disk.py`). -/
noncomputable def pass2_side_length
    (disk_diameter_mm clearance reduction_ratio : ℝ)
    (number_of_marker : ℕ) : ℝ :=
  get_polygon_inside_circle_side_length number_of_marker
    (marker_circle_diameter disk_diameter_mm clearance reduction_ratio
      number_of_marker)

/-- The quartile selector of `generate_disk.py`: Python's true division
`total_number / 4` is exact real division, modelled over ℚ. -/
def determine_quartile (total_number : ℤ) (ind : ℤ) : ℤ :=
  let quartile_size : ℚ := (total_number : ℚ) / 4
  if (ind : ℚ) < quartile_size then 1
  else if (ind : ℚ) < 2 * quartile_size then 2
  else if (ind : ℚ) < 3 * quartile_size then 3
  else 4

/-- Label anchor position for a marker, embedding the `id_quartile`
branches of `main` (lines 149–186 of `generate_disk.py`): a diagonal
offset of `marker_radius * ratio` in each axis, with signs chosen by the
quartile. -/
noncomputable def marker_id_position
    (marker_center : ℝ × ℝ) (marker_radius_mm : ℝ)
    (id_dist_marker_radius_ratio : ℝ) (id_quartile : ℤ) : ℝ × ℝ :=
  if id_quartile = 1 then
    (marker_center.1 - marker_radius_mm * id_dist_marker_radius_ratio,
     marker_center.2 - marker_radius_mm * id_dist_marker_radius_ratio)
  else if id_quartile = 2 then
    (marker_center.1 + marker_radius_mm * id_dist_marker_radius_ratio,
     marker_center.2 - marker_radius_mm * id_dist_marker_radius_ratio)
  else if id_quartile = 3 then
    (marker_center.1 + marker_radius_mm * id_dist_marker_radius_ratio,
     marker_center.2 + marker_radius_mm * id_dist_marker_radius_ratio)
  else
    (marker_center.1 - marker_radius_mm * id_dist_marker_radius_ratio,
     marker_center.2 + marker_radius_mm * id_dist_marker_radius_ratio)

lemma corner_positions_getElem (N : ℕ) (D : ℝ) (i : ℕ) (hi : i < N) :
    (get_polygon_inside_circle_corner_positions N D)[i]? =
      some (D / 2 + D / 2 * Real.cos ((i : ℝ) * (2 * Real.pi / N)),
            D / 2 + D / 2 * Real.sin ((i : ℝ) * (2 * Real.pi / N))) := by
  unfold get_polygon_inside_circle_corner_positions
  rw [List.getElem?_map, List.getElem?_range hi]
  rfl

lemma corner_positions_length (N : ℕ) (D : ℝ) :
    (get_polygon_inside_circle_corner_positions N D).length = N := by
  unfold get_polygon_inside_circle_corner_positions
  rw [List.length_map, List.length_range]

lemma sin_pi_div_nat_pos (N : ℕ) (hN : 3 ≤ N) : 0 < Real.sin (Real.pi / N) := by
  have hN0 : (0 : ℝ) < N := by exact_mod_cast Nat.lt_of_lt_of_le (by norm_num) hN
  have h1 : (1 : ℝ) < N := by exact_mod_cast Nat.lt_of_lt_of_le (by norm_num) hN
  apply Real.sin_pos_of_pos_of_lt_pi
  · positivity
  · exact div_lt_self Real.pi_pos h1

lemma cos_cos_sin_sin_sq (a b : ℝ) :
    (Real.cos a - Real.cos b) ^ 2 + (Real.sin a - Real.sin b) ^ 2 =
      2 - 2 * Real.cos (a - b) := by
  rw [Real.cos_sub]
  linear_combination Real.sin_sq_add_cos_sq a + Real.sin_sq_add_cos_sq b

lemma cos_eq_one_sub_two_sin_sq_half (x : ℝ) :
    Real.cos x = 1 - 2 * Real.sin (x / 2) ^ 2 := by
  have h := Real.cos_two_mul' (x / 2)
  have h2 : 2 * (x / 2) = x := by ring
  rw [h2] at h
  have h3 := Real.sin_sq_add_cos_sq (x / 2)
  linarith

lemma dist2_vertex (r a b : ℝ) :
    dist2 (r + r * Real.cos a, r + r * Real.sin a)
        (r + r * Real.cos b, r + r * Real.sin b) =
      2 * |r| * |Real.sin ((a - b) / 2)| := by
  have hc := cos_eq_one_sub_two_sin_sq_half (a - b)
  have e1 := cos_cos_sin_sin_sq a b
  have key : (r + r * Real.cos a - (r + r * Real.cos b)) ^ 2 +
      (r + r * Real.sin a - (r + r * Real.sin b)) ^ 2 =
      (2 * |r| * |Real.sin ((a - b) / 2)|) ^ 2 := by
    have habs : (2 * |r| * |Real.sin ((a - b) / 2)|) ^ 2 =
        4 * r ^ 2 * Real.sin ((a - b) / 2) ^ 2 := by
      rw [mul_pow, mul_pow, sq_abs, sq_abs]; ring
    rw [habs]
    linear_combination (r ^ 2) * e1 - (2 * r ^ 2) * hc
  unfold dist2
  rw [key, Real.sqrt_sq (by positivity)]

lemma corner_adjacent_dist (N : ℕ) (hN : 3 ≤ N) (D : ℝ) (hD : 0 ≤ D)
    (i : ℕ) (hi : i < N) :
    ∃ p q, (get_polygon_inside_circle_corner_positions N D)[i]? = some p ∧
      (get_polygon_inside_circle_corner_positions N D)[(i + 1) % N]? = some q ∧
      dist2 p q = get_polygon_inside_circle_side_length N D := by
  have hNR : (0 : ℝ) < N := by
    have h0 : 0 < N := by omega
    exact_mod_cast h0
  have hNne : (N : ℝ) ≠ 0 := ne_of_gt hNR
  have hsin : 0 < Real.sin (Real.pi / N) := sin_pi_div_nat_pos N hN
  have hj : (i + 1) % N < N := Nat.mod_lt _ (by omega)
  refine ⟨_, _, corner_positions_getElem N D i hi,
    corner_positions_getElem N D ((i + 1) % N) hj, ?_⟩
  rw [dist2_vertex]
  unfold get_polygon_inside_circle_side_length
  show _ = 2 * (D / 2) * Real.sin (Real.pi / N)
  have habs : |D / 2| = D / 2 := abs_of_nonneg (by linarith)
  rw [habs]
  rcases Nat.lt_or_ge (i + 1) N with hlt | hge
  · have hmod : (i + 1) % N = i + 1 := Nat.mod_eq_of_lt hlt
    rw [hmod]
    have hang : (((i : ℕ) : ℝ) * (2 * Real.pi / N) -
        ((i + 1 : ℕ) : ℝ) * (2 * Real.pi / N)) / 2 = -(Real.pi / N) := by
      push_cast
      field_simp
      ring
    rw [hang, Real.sin_neg, abs_neg, abs_of_nonneg hsin.le]
  · have hiN : i + 1 = N := by omega
    have hmod : (i + 1) % N = 0 := by rw [hiN, Nat.mod_self]
    rw [hmod]
    have hcast : ((i : ℕ) : ℝ) = (N : ℝ) - 1 := by
      have hc : ((i : ℕ) : ℝ) + 1 = N := by exact_mod_cast hiN
      linarith
    have hang : (((i : ℕ) : ℝ) * (2 * Real.pi / N) -
        ((0 : ℕ) : ℝ) * (2 * Real.pi / N)) / 2 = Real.pi - Real.pi / N := by
      rw [hcast]
      push_cast
      field_simp
      ring
    rw [hang, Real.sin_pi_sub, abs_of_nonneg hsin.le]

/-- C4: for every N ≥ 3 and D > 0, vertex i returned by the Polygon Fitter
equals (r + r·cos(i·2π/N), r + r·sin(i·2π/N)) with r = D/2, and every
returned vertex lies at Euclidean distance exactly D/2 from the point
(D/2, D/2). -/
theorem polygon_vertices_on_circle (N : ℕ) (D : ℝ) (hN : 3 ≤ N) (hD : 0 < D) :
    ∀ i, i < N →
      (get_polygon_inside_circle_corner_positions N D)[i]? =
        some (D / 2 + D / 2 * Real.cos ((i : ℝ) * (2 * Real.pi / N)),
              D / 2 + D / 2 * Real.sin ((i : ℝ) * (2 * Real.pi / N))) ∧
      ∀ p, (get_polygon_inside_circle_corner_positions N D)[i]? = some p →
        dist2 p (D / 2, D / 2) = D / 2 := by
  intro i hi
  refine ⟨corner_positions_getElem N D i hi, ?_⟩
  intro p hp
  rw [corner_positions_getElem N D i hi] at hp
  obtain rfl := (Option.some.inj hp).symm
  unfold dist2
  have hsq : (D / 2 + D / 2 * Real.cos ((i : ℝ) * (2 * Real.pi / N)) -
        (D / 2, D / 2).1) ^ 2 +
      (D / 2 + D / 2 * Real.sin ((i : ℝ) * (2 * Real.pi / N)) -
        (D / 2, D / 2).2) ^ 2 = (D / 2) ^ 2 := by
    have h := Real.sin_sq_add_cos_sq ((i : ℝ) * (2 * Real.pi / N))
    simp only []
    linear_combination ((D / 2) ^ 2) * h
  rw [hsq, Real.sqrt_sq (by linarith)]

/-- C4 witness at N = 3, D = 10, i = 0. -/
theorem polygon_vertices_on_circle_witness :
    3 ≤ 3 ∧ (0 : ℝ) < 10 ∧
      (get_polygon_inside_circle_corner_positions 3 10)[0]? =
        some (10 / 2 + 10 / 2 * Real.cos (((0 : ℕ) : ℝ) * (2 * Real.pi / ((3 : ℕ) : ℝ))),
              10 / 2 + 10 / 2 * Real.sin (((0 : ℕ) : ℝ) * (2 * Real.pi / ((3 : ℕ) : ℝ)))) :=
  ⟨by norm_num, by norm_num,
    (polygon_vertices_on_circle 3 10 (by norm_num) (by norm_num) 0 (by norm_num)).1⟩

/-- C5: for every N ≥ 3 and D > 0, the Polygon Fitter's edge length equals
2·(D/2)·sin(π/N), and the Euclidean distance between every pair of
consecutive returned vertices (wrapping from the last back to the first)
equals that edge length. -/
theorem polygon_side_length_adjacent (N : ℕ) (D : ℝ) (hN : 3 ≤ N) (hD : 0 < D) :
    get_polygon_inside_circle_side_length N D =
        2 * (D / 2) * Real.sin (Real.pi / N) ∧
      ∀ i, i < N → ∃ p q,
        (get_polygon_inside_circle_corner_positions N D)[i]? = some p ∧
        (get_polygon_inside_circle_corner_positions N D)[(i + 1) % N]? = some q ∧
        dist2 p q = get_polygon_inside_circle_side_length N D := by
  refine ⟨rfl, ?_⟩
  intro i hi
  exact corner_adjacent_dist N hN D hD.le i hi

/-- C5 witness at N = 3, D = 10: the edge-length formula instance. -/
theorem polygon_side_length_adjacent_witness :
    3 ≤ 3 ∧ (0 : ℝ) < 10 ∧
      get_polygon_inside_circle_side_length 3 10 =
        2 * ((10 : ℝ) / 2) * Real.sin (Real.pi / ((3 : ℕ) : ℝ)) :=
  ⟨by norm_num, by norm_num,
    (polygon_side_length_adjacent 3 10 (by norm_num) (by norm_num)).1⟩

/-- C9: determine_quartile buckets the index range by the real-valued
boundary N/4 (returning 1, 2, 3, 4 on the four intervals); for N = 8 the
indices 0–7 map to buckets 1,1,2,2,3,3,4,4; and the four buckets select
the four distinct diagonal label-offset sign pairs scaled by
radius × offsetRatio. -/
theorem determine_quartile_buckets :
    (∀ total_number ind : ℤ, 0 ≤ total_number →
      (((ind : ℚ) < (total_number : ℚ) / 4) →
        determine_quartile total_number ind = 1) ∧
      (((total_number : ℚ) / 4 ≤ (ind : ℚ)) →
        ((ind : ℚ) < 2 * ((total_number : ℚ) / 4)) →
        determine_quartile total_number ind = 2) ∧
      ((2 * ((total_number : ℚ) / 4) ≤ (ind : ℚ)) →
        ((ind : ℚ) < 3 * ((total_number : ℚ) / 4)) →
        determine_quartile total_number ind = 3) ∧
      ((3 * ((total_number : ℚ) / 4) ≤ (ind : ℚ)) →
        determine_quartile total_number ind = 4)) ∧
    (determine_quartile 8 0 = 1 ∧ determine_quartile 8 1 = 1 ∧
     determine_quartile 8 2 = 2 ∧ determine_quartile 8 3 = 2 ∧
     determine_quartile 8 4 = 3 ∧ determine_quartile 8 5 = 3 ∧
     determine_quartile 8 6 = 4 ∧ determine_quartile 8 7 = 4) ∧
    (∀ (c : ℝ × ℝ) (r t : ℝ),
      marker_id_position c r t 1 = (c.1 + -1 * (r * t), c.2 + -1 * (r * t)) ∧
      marker_id_position c r t 2 = (c.1 + 1 * (r * t), c.2 + -1 * (r * t)) ∧
      marker_id_position c r t 3 = (c.1 + 1 * (r * t), c.2 + 1 * (r * t)) ∧
      marker_id_position c r t 4 = (c.1 + -1 * (r * t), c.2 + 1 * (r * t))) := by
  refine ⟨?_, by norm_num [determine_quartile], ?_⟩
  · intro total_number ind hT
    have hq : (0 : ℚ) ≤ (total_number : ℚ) / 4 := by
      have : (0 : ℚ) ≤ (total_number : ℚ) := by exact_mod_cast hT
      linarith
    simp only [determine_quartile]
    refine ⟨fun h1 => ?_, fun h1 h2 => ?_, fun h1 h2 => ?_, fun h1 => ?_⟩
    · rw [if_pos h1]
    · rw [if_neg (not_lt.mpr h1), if_pos h2]
    · rw [if_neg (not_lt.mpr (by linarith)), if_neg (not_lt.mpr h1), if_pos h2]
    · rw [if_neg (not_lt.mpr (by linarith)), if_neg (not_lt.mpr (by linarith)),
        if_neg (not_lt.mpr h1)]
  · intro c r t
    norm_num [marker_id_position, sub_eq_add_neg]

/-- C9 witness: bucket 2 at N = 8, i = 2, with the bucket bounds
discharged concretely. -/
theorem determine_quartile_buckets_witness :
    ((0 : ℤ) ≤ 8 ∧ ((8 : ℤ) : ℚ) / 4 ≤ ((2 : ℤ) : ℚ) ∧
        ((2 : ℤ) : ℚ) < 2 * (((8 : ℤ) : ℚ) / 4)) ∧
      determine_quartile 8 2 = 2 :=
  ⟨by norm_num,
    (determine_quartile_buckets.1 8 2 (by norm_num)).2.1 (by norm_num)
      (by norm_num)⟩

/-- C10: determine_quartile is total and always returns a value in
the set containing 1, 2, 3 and 4, for every pair of integer inputs. -/
theorem determine_quartile_total (total_number ind : ℤ) :
    determine_quartile total_number ind = 1 ∨
    determine_quartile total_number ind = 2 ∨
    determine_quartile total_number ind = 3 ∨
    determine_quartile total_number ind = 4 := by
  simp only [determine_quartile]
  split_ifs <;> simp

lemma get_marker_positions_and_size_fst (D c p : ℝ) (N R : ℕ) :
    (get_marker_positions_and_size D N R c p).1 =
      get_polygon_inside_circle_corner_positions N
        (marker_circle_diameter D c p N) := rfl

lemma get_marker_positions_and_size_snd (D c p : ℝ) (N R : ℕ) :
    (get_marker_positions_and_size D N R c p).2 =
      if pass2_side_length D c p N / 2 - c < 0 then
        pass2_side_length D c p N / 2
      else pass2_side_length D c p N / 2 - c := rfl

lemma side_length_pos (N : ℕ) (D : ℝ) (hN : 3 ≤ N) (hD : 0 < D) :
    0 < get_polygon_inside_circle_side_length N D := by
  simp only [get_polygon_inside_circle_side_length]
  have hs := sin_pi_div_nat_pos N hN
  positivity

lemma pass1_marker_radius_nonneg (D c : ℝ) (N : ℕ) (hN : 3 ≤ N) (hD : 0 < D)
    (hc : 0 ≤ c) :
    0 ≤ pass1_marker_radius D c N := by
  have hside := side_length_pos N D hN hD
  simp only [pass1_marker_radius]
  split_ifs with h
  · linarith
  · linarith

lemma marker_circle_diameter_le (D c p : ℝ) (N : ℕ) (hN : 3 ≤ N) (hD : 0 < D)
    (hc : 0 ≤ c) (hp : 0 ≤ p) :
    marker_circle_diameter D c p N ≤ D := by
  have h1 := pass1_marker_radius_nonneg D c N hN hD hc
  have h2 : 0 ≤ p * (2 * pass1_marker_radius D c N) :=
    mul_nonneg hp (by linarith)
  simp only [marker_circle_diameter]
  linarith

lemma pass2_side_length_le (D c p : ℝ) (N : ℕ) (hN : 3 ≤ N) (hD : 0 < D)
    (hc : 0 ≤ c) (hp : 0 ≤ p) :
    pass2_side_length D c p N ≤ get_polygon_inside_circle_side_length N D := by
  have hsin := (sin_pi_div_nat_pos N hN).le
  have hc2 := marker_circle_diameter_le D c p N hN hD hc hp
  simp only [pass2_side_length, get_polygon_inside_circle_side_length]
  nlinarith

/-- C2: for valid inputs the solver returns exactly the Polygon Fitter's
vertices for (N, markerCircleDiameter), where markerCircleDiameter is the
disk diameter reduced by reductionRatio times twice the (possibly clamped)
pass-1 radius; the pass-1 positions are discarded. -/
theorem solver_positions_are_pass2 (D c p : ℝ) (N : ℕ) (hD : 0 < D)
    (hN : 3 ≤ N) (hc : 0 ≤ c) (hp : 0 ≤ p) :
    (get_marker_positions_and_size D N 3 c p).1 =
      get_polygon_inside_circle_corner_positions N
        (marker_circle_diameter D c p N) ∧
    marker_circle_diameter D c p N =
      D - p * (2 * pass1_marker_radius D c N) :=
  ⟨rfl, rfl⟩

/-- C2 witness at D = 10, N = 3, clearance = 0, ratio = 0. -/
theorem solver_positions_are_pass2_witness :
    ((0 : ℝ) < 10 ∧ 3 ≤ 3 ∧ (0 : ℝ) ≤ 0 ∧ (0 : ℝ) ≤ 0) ∧
      (get_marker_positions_and_size 10 3 3 0 0).1 =
        get_polygon_inside_circle_corner_positions 3
          (marker_circle_diameter 10 0 0 3) :=
  ⟨⟨by norm_num, by norm_num, le_refl 0, le_refl 0⟩,
    (solver_positions_are_pass2 10 0 0 3 (by norm_num) (by norm_num)
      (le_refl 0) (le_refl 0)).1⟩

/-- C6: with clearance = 0 and reduction ratio = 0, the final marker
radius equals exactly half the pass-2 edge length, and the pass-2 edge
length equals the pass-1 edge length (the placement circle is the full
disk). -/
theorem solver_radius_zero_clearance (D : ℝ) (N : ℕ) (hD : 0 < D)
    (hN : 3 ≤ N) :
    (get_marker_positions_and_size D N 3 0 0).2 =
        pass2_side_length D 0 0 N / 2 ∧
      pass2_side_length D 0 0 N = get_polygon_inside_circle_side_length N D := by
  have hc2 : marker_circle_diameter D 0 0 N = D := by
    simp only [marker_circle_diameter]; ring
  constructor
  · rw [get_marker_positions_and_size_snd]
    simp only [sub_zero, ite_self]
  · unfold pass2_side_length
    rw [hc2]

/-- C6 witness at D = 10, N = 3. -/
theorem solver_radius_zero_clearance_witness :
    ((0 : ℝ) < 10 ∧ 3 ≤ 3) ∧
      (get_marker_positions_and_size 10 3 3 0 0).2 =
        pass2_side_length 10 0 0 3 / 2 :=
  ⟨⟨by norm_num, by norm_num⟩,
    (solver_radius_zero_clearance 10 3 (by norm_num) (by norm_num)).1⟩

/-- C7: the pass-2 placement circle diameter never exceeds the disk
diameter, and the final marker radius never exceeds half the pass-1 edge
length (the pass-1 radius before clearance subtraction). -/
theorem solver_radius_bounded (D c p : ℝ) (N : ℕ) (hD : 0 < D) (hN : 3 ≤ N)
    (hc : 0 ≤ c) (hp : 0 ≤ p) :
    marker_circle_diameter D c p N ≤ D ∧
      (get_marker_positions_and_size D N 3 c p).2 ≤
        get_polygon_inside_circle_side_length N D / 2 := by
  refine ⟨marker_circle_diameter_le D c p N hN hD hc hp, ?_⟩
  have hs := pass2_side_length_le D c p N hN hD hc hp
  rw [get_marker_positions_and_size_snd]
  split_ifs with h
  · linarith
  · linarith

/-- C7 witness at D = 10, N = 3, clearance = 1, ratio = 1. -/
theorem solver_radius_bounded_witness :
    ((0 : ℝ) < 10 ∧ 3 ≤ 3 ∧ (0 : ℝ) ≤ 1 ∧ (0 : ℝ) ≤ 1) ∧
      marker_circle_diameter 10 1 1 3 ≤ 10 :=
  ⟨⟨by norm_num, by norm_num, by norm_num, by norm_num⟩,
    (solver_radius_bounded 10 1 1 3 (by norm_num) (by norm_num) (by norm_num)
      (by norm_num)).1⟩

lemma hexagon_circle_diameter : marker_circle_diameter 100 1 0 6 = 100 := by
  simp only [marker_circle_diameter]
  ring

lemma hexagon_pass2_side_length : pass2_side_length 100 1 0 6 = 50 := by
  unfold pass2_side_length
  rw [hexagon_circle_diameter]
  simp only [get_polygon_inside_circle_side_length]
  have h6 : ((6 : ℕ) : ℝ) = 6 := by norm_num
  rw [h6, Real.sin_pi_div_six]
  norm_num

lemma hexagon_radius : (get_marker_positions_and_size 100 6 3 1 0).2 = 24 := by
  rw [get_marker_positions_and_size_snd, hexagon_pass2_side_length]
  norm_num

/-- C3 counterexample: at diskDiameter = 100, N = 6, clearance = 1,
reduction ratio = 0, the run is non-degenerate, adjacent returned centers
are at Euclidean distance 50, the returned radius is 24, and the distance
minus twice the radius is 2, not the configured clearance 1. -/
theorem marker_gap_counterexample :
    (0 : ℝ) ≤ pass2_side_length 100 1 0 6 / 2 - 1 ∧
    (get_marker_positions_and_size 100 6 3 1 0).1 =
      get_polygon_inside_circle_corner_positions 6 100 ∧
    (get_polygon_inside_circle_corner_positions 6 100)[0]? = some (100, 50) ∧
    (get_polygon_inside_circle_corner_positions 6 100)[1]? =
      some (75, 50 + 25 * Real.sqrt 3) ∧
    dist2 (100, 50) (75, 50 + 25 * Real.sqrt 3) -
      2 * (get_marker_positions_and_size 100 6 3 1 0).2 = 2 ∧
    (2 : ℝ) ≠ 1 := by
  have h6 : ((6 : ℕ) : ℝ) = 6 := by norm_num
  refine ⟨by rw [hexagon_pass2_side_length]; norm_num,
    by rw [get_marker_positions_and_size_fst, hexagon_circle_diameter],
    ?_, ?_, ?_, by norm_num⟩
  · rw [corner_positions_getElem 6 100 0 (by norm_num)]
    norm_num
  · rw [corner_positions_getElem 6 100 1 (by norm_num)]
    have hang : ((1 : ℕ) : ℝ) * (2 * Real.pi / ((6 : ℕ) : ℝ)) = Real.pi / 3 := by
      rw [h6]; push_cast; ring
    rw [hang, Real.cos_pi_div_three, Real.sin_pi_div_three]
    norm_num
    ring
  · have h3 : Real.sqrt 3 ^ 2 = 3 := Real.sq_sqrt (by norm_num)
    have hd : dist2 (100, 50) (75, 50 + 25 * Real.sqrt 3) = 50 := by
      unfold dist2
      have hsq : ((100 : ℝ) - 75) ^ 2 + (50 - (50 + 25 * Real.sqrt 3)) ^ 2 =
          50 ^ 2 := by
        linear_combination 625 * h3
      rw [show ((100, (50 : ℝ)).1 - ((75 : ℝ), 50 + 25 * Real.sqrt 3).1) ^ 2 +
          ((100, (50 : ℝ)).2 - ((75 : ℝ), 50 + 25 * Real.sqrt 3).2) ^ 2 =
          ((100 : ℝ) - 75) ^ 2 + (50 - (50 + 25 * Real.sqrt 3)) ^ 2 from rfl,
        hsq, Real.sqrt_sq (by norm_num)]
    rw [hd, hexagon_radius]
    norm_num

lemma circle_diameter_nonneg_of_side (N : ℕ) (hN : 3 ≤ N) (x : ℝ)
    (h : 0 ≤ get_polygon_inside_circle_side_length N x) : 0 ≤ x := by
  have hsin := sin_pi_div_nat_pos N hN
  simp only [get_polygon_inside_circle_side_length] at h
  nlinarith

lemma pass2_side_length_eq (D c p : ℝ) (N : ℕ) :
    pass2_side_length D c p N =
      get_polygon_inside_circle_side_length N
        (marker_circle_diameter D c p N) := rfl

/-- C3 (amended): in the non-degenerate case (pass-2 radius before
clamping ≥ 0) the distance between adjacent returned centers minus twice
the returned radius equals twice the configured clearance and the radius
is ≥ 0 (strictly positive when the pre-clamp radius is strictly
positive); in the degenerate case, provided the pass-2 placement circle
diameter is non-negative, that difference equals exactly 0. -/
theorem marker_gap_amended (D c p : ℝ) (N : ℕ) (hD : 0 < D) (hN : 3 ≤ N)
    (hc : 0 ≤ c) (hp : 0 ≤ p) :
    (0 ≤ pass2_side_length D c p N / 2 - c →
      0 ≤ (get_marker_positions_and_size D N 3 c p).2 ∧
      ∀ i, i < N → ∃ q1 q2,
        ((get_marker_positions_and_size D N 3 c p).1)[i]? = some q1 ∧
        ((get_marker_positions_and_size D N 3 c p).1)[(i + 1) % N]? = some q2 ∧
        dist2 q1 q2 - 2 * (get_marker_positions_and_size D N 3 c p).2 =
          2 * c) ∧
    (pass2_side_length D c p N / 2 - c < 0 →
      0 ≤ marker_circle_diameter D c p N →
      ∀ i, i < N → ∃ q1 q2,
        ((get_marker_positions_and_size D N 3 c p).1)[i]? = some q1 ∧
        ((get_marker_positions_and_size D N 3 c p).1)[(i + 1) % N]? = some q2 ∧
        dist2 q1 q2 - 2 * (get_marker_positions_and_size D N 3 c p).2 = 0) ∧
    (0 < pass2_side_length D c p N / 2 - c →
      0 < (get_marker_positions_and_size D N 3 c p).2) := by
  refine ⟨fun h => ?_, fun h hc2 => ?_, fun h => ?_⟩
  · have hrad : (get_marker_positions_and_size D N 3 c p).2 =
        pass2_side_length D c p N / 2 - c := by
      rw [get_marker_positions_and_size_snd, if_neg (not_lt.mpr h)]
    have hside : 0 ≤ pass2_side_length D c p N := by linarith
    have hc2 : 0 ≤ marker_circle_diameter D c p N :=
      circle_diameter_nonneg_of_side N hN _ (pass2_side_length_eq D c p N ▸ hside)
    refine ⟨by rw [hrad]; linarith, ?_⟩
    intro i hi
    obtain ⟨q1, q2, h1, h2, hd⟩ := corner_adjacent_dist N hN _ hc2 i hi
    refine ⟨q1, q2, ?_, ?_, ?_⟩
    · rw [get_marker_positions_and_size_fst]; exact h1
    · rw [get_marker_positions_and_size_fst]; exact h2
    · rw [hrad, hd, ← pass2_side_length_eq D c p N]
      ring
  · have hrad : (get_marker_positions_and_size D N 3 c p).2 =
        pass2_side_length D c p N / 2 := by
      rw [get_marker_positions_and_size_snd, if_pos h]
    intro i hi
    obtain ⟨q1, q2, h1, h2, hd⟩ := corner_adjacent_dist N hN _ hc2 i hi
    refine ⟨q1, q2, ?_, ?_, ?_⟩
    · rw [get_marker_positions_and_size_fst]; exact h1
    · rw [get_marker_positions_and_size_fst]; exact h2
    · rw [hrad, hd, ← pass2_side_length_eq D c p N]
      ring
  · rw [get_marker_positions_and_size_snd, if_neg (not_lt.mpr h.le)]
    linarith

/-- C3 (amended) witness at D = 100, N = 6, clearance = 1, ratio = 0:
the non-degenerate strict case gives a strictly positive radius. -/
theorem marker_gap_amended_witness :
    ((0 : ℝ) < 100 ∧ 3 ≤ 6 ∧ (0 : ℝ) ≤ 1 ∧ (0 : ℝ) ≤ 0 ∧
        0 < pass2_side_length 100 1 0 6 / 2 - 1) ∧
      0 < (get_marker_positions_and_size 100 6 3 1 0).2 :=
  ⟨⟨by norm_num, by norm_num, by norm_num, le_refl 0,
      by rw [hexagon_pass2_side_length]; norm_num⟩,
    (marker_gap_amended 100 1 0 6 (by norm_num) (by norm_num) (by norm_num)
      (le_refl 0)).2.2 (by rw [hexagon_pass2_side_length]; norm_num)⟩

lemma sin_pi_div_three_cast : Real.sin (Real.pi / ((3 : ℕ) : ℝ)) =
    Real.sqrt 3 / 2 := by
  norm_num [Real.sin_pi_div_three]

lemma sqrt_three_sq : Real.sqrt 3 ^ 2 = 3 := Real.sq_sqrt (by norm_num)

lemma one_lt_sqrt_three : 1 < Real.sqrt 3 := by
  nlinarith [sqrt_three_sq, Real.sqrt_nonneg 3]

lemma sqrt_three_lt_two : Real.sqrt 3 < 2 := by
  nlinarith [sqrt_three_sq, Real.sqrt_nonneg 3]

lemma triangle_side_length (D : ℝ) :
    get_polygon_inside_circle_side_length 3 D = D / 2 * Real.sqrt 3 := by
  simp only [get_polygon_inside_circle_side_length]
  rw [sin_pi_div_three_cast]
  ring

/-- C1: the spec's degenerate input (diskDiameter = 10, N = 3,
clearance = 100, default reduction ratio 2) triggers the clamp-and-warn
branch in both passes, yet the returned marker radius is negative: the
pass-2 placement circle diameter is 10 − 10·√3 < 0, so the clamp value
edgeLength/2 is itself negative. -/
theorem degenerate_clamp_negative_radius :
    get_polygon_inside_circle_side_length 3 10 / 2 - 100 < 0 ∧
    pass2_side_length 10 100 2 3 / 2 - 100 < 0 ∧
    (get_marker_positions_and_size 10 3 3 100 2).2 < 0 := by
  have h3 := sqrt_three_sq
  have h0 := Real.sqrt_nonneg 3
  have h1 := one_lt_sqrt_three
  have h2 := sqrt_three_lt_two
  have hside1 : get_polygon_inside_circle_side_length 3 10 =
      5 * Real.sqrt 3 := by
    rw [triangle_side_length]; ring
  have hwarn1 : get_polygon_inside_circle_side_length 3 10 / 2 - 100 < 0 := by
    rw [hside1]; nlinarith
  have hr1 : pass1_marker_radius 10 100 3 = 5 * Real.sqrt 3 / 2 := by
    simp only [pass1_marker_radius]
    rw [hside1, if_pos (by nlinarith : 5 * Real.sqrt 3 / 2 - 100 < 0)]
  have hc2 : marker_circle_diameter 10 100 2 3 = 10 - 10 * Real.sqrt 3 := by
    simp only [marker_circle_diameter]
    rw [hr1]; ring
  have hside2 : pass2_side_length 10 100 2 3 =
      (10 - 10 * Real.sqrt 3) / 2 * Real.sqrt 3 := by
    rw [pass2_side_length_eq, hc2, triangle_side_length]
  have hneg : (10 - 10 * Real.sqrt 3) / 2 * Real.sqrt 3 < 0 := by nlinarith
  refine ⟨hwarn1, by rw [hside2]; nlinarith, ?_⟩
  rw [get_marker_positions_and_size_snd, hside2,
    if_pos (by nlinarith : (10 - 10 * Real.sqrt 3) / 2 * Real.sqrt 3 / 2 -
      100 < 0)]
  nlinarith

/-- C8: the end-to-end scenario (inner disk diameter 116 mm, N = 3,
default clearance 2 and reduction ratio 2) returns exactly 3 positions
but a negative marker radius: the pass-2 placement circle diameter is
124 − 116·√3 < 0. -/
theorem end_to_end_negative_radius :
    (get_marker_positions_and_size 116 3 3 2 2).1.length = 3 ∧
    (get_marker_positions_and_size 116 3 3 2 2).2 < 0 := by
  have h3 := sqrt_three_sq
  have h0 := Real.sqrt_nonneg 3
  have h1 := one_lt_sqrt_three
  have h2 := sqrt_three_lt_two
  have hside1 : get_polygon_inside_circle_side_length 3 116 =
      58 * Real.sqrt 3 := by
    rw [triangle_side_length]; ring
  have hr1 : pass1_marker_radius 116 2 3 = 58 * Real.sqrt 3 / 2 - 2 := by
    simp only [pass1_marker_radius]
    rw [hside1, if_neg (by nlinarith : ¬(58 * Real.sqrt 3 / 2 - 2 < 0))]
  have hc2 : marker_circle_diameter 116 2 2 3 = 124 - 116 * Real.sqrt 3 := by
    simp only [marker_circle_diameter]
    rw [hr1]; ring
  have hside2 : pass2_side_length 116 2 2 3 =
      (124 - 116 * Real.sqrt 3) / 2 * Real.sqrt 3 := by
    rw [pass2_side_length_eq, hc2, triangle_side_length]
  have hneg : (124 - 116 * Real.sqrt 3) / 2 * Real.sqrt 3 < 0 := by nlinarith
  constructor
  · rw [get_marker_positions_and_size_fst, corner_positions_length]
  · rw [get_marker_positions_and_size_snd, hside2,
      if_pos (by nlinarith : (124 - 116 * Real.sqrt 3) / 2 * Real.sqrt 3 / 2 -
        2 < 0)]
    nlinarith
